import Mathlib

/-!
# Matchmaking registry: embedding and verification

Shallow embedding of `server/server.go`, `server/registry.go` and `handler.go`.

* Go's `int` is modelled as `Int` together with the range of the 64-bit
  platforms the service is built for; arithmetic that can wrap goes through
  `wrapInt`.
* `Registry` is the Go `map[string]*Server`, a finite map with distinct keys.
  The mutex only serialises access and has no sequential effect.
* The handler is the only writer of the registry and stores every record it
  allocates under one key, so the pointed-to record is kept in the map itself
  and a write through the pointer returned by `GetServer` is a write-back at
  that key.
* Libraries outside the repository (`encoding/json`, the Docker client) are
  parameters of the handlers that use them.
-/

namespace Matchmaking

/-! ## Go machine integers and `strconv.Atoi` -/

/-- Smallest value of Go's 64-bit `int`. -/
def minInt : Int := -(2 ^ 63)

/-- Largest value of Go's 64-bit `int`. -/
def maxInt : Int := 2 ^ 63 - 1

/-- Two's-complement wrap-around of a mathematical integer into Go's `int`. -/
def wrapInt (x : Int) : Int := (x + 2 ^ 63) % 2 ^ 64 - 2 ^ 63

/-- Accumulate decimal digits; `none` as soon as a byte is not `0`..`9`. -/
def parseDigits : List Char → Nat → Option Nat
  | [], n => some n
  | c :: cs, n =>
    if '0' ≤ c ∧ c ≤ '9' then parseDigits cs (n * 10 + (c.toNat - '0'.toNat)) else none

/-- The range check of `strconv.ParseInt` for the size of `int`. -/
def inRange (v : Int) : Option Int :=
  if minInt ≤ v ∧ v ≤ maxInt then some v else none

/-- Go's `strconv.Atoi`: an optional sign followed by at least one decimal digit,
with a value that fits `int`; `none` stands for a returned error. -/
def Atoi (s : String) : Option Int :=
  match s.data with
  | [] => none
  | '-' :: ds =>
    if ds = [] then none else (parseDigits ds 0).bind (fun n => inRange (-(n : Int)))
  | '+' :: ds =>
    if ds = [] then none else (parseDigits ds 0).bind (fun n => inRange (n : Int))
  | ds => (parseDigits ds 0).bind (fun n => inRange (n : Int))

/-! ## `server/server.go` -/

def StateStartup : Int := 0
def StateFree : Int := 1
def StateBusy : Int := 2
def StateShutdown : Int := 3

structure Player where
  Username : String
  XUID : String
deriving DecidableEq, Repr

/-- The record of one instance. `C` and `N` are Docker's `types.ContainerJSONBase`
and `types.NetworkSettings`, `V` is the value type of the `Extras` map. -/
structure Server (C N V : Type) where
  Identifier : String
  Image : String
  PlayersMax : Int
  State : Int
  Type' : Int
  Container : C
  Network : N
  Extras : List (String × V)
  Players : List Player
deriving DecidableEq, Repr

/-! ## `server/registry.go` -/

/-- The map `servers`; `α` is the stored value (`*Server` in the source). -/
structure Registry (α : Type) where
  servers : AList (fun _ : String => α)

def NewRegistry {α : Type} : Registry α := ⟨∅⟩

def Registry.AddServer {α : Type} (r : Registry α) (identifier : String) (server : α) :
    Registry α :=
  ⟨r.servers.insert identifier server⟩

def Registry.GetServer {α : Type} (r : Registry α) (identifier : String) : Option α :=
  r.servers.lookup identifier

def Registry.RemoveServer {α : Type} (r : Registry α) (identifier : String) : Registry α :=
  ⟨r.servers.erase identifier⟩

/-- All stored values. Go leaves the iteration order of a map unspecified; the
order of the entries is used here and the results below hold up to reordering. -/
def Registry.GetServers {α : Type} (r : Registry α) : List α :=
  r.servers.entries.foldl (fun servers e => servers ++ [e.2]) []

/-- The effect on the map of assigning through the pointer stored at `identifier`:
the record at that key is replaced, keys and their order stay. -/
def Registry.store {α : Type} (r : Registry α) (identifier : String) (server : α) :
    Registry α :=
  ⟨r.servers.replace identifier server⟩

/-! ## `net/http`, `encoding/json` and the Docker client as seen by the handler -/

/-- The decoded query of a request (`url.Values`), in order of appearance. -/
abbrev Values := List (String × String)

/-- `url.Values.Get`: the first value of the key, the empty string when absent. -/
def Values.Get (v : Values) (key : String) : String :=
  match v.find? (fun p => p.1 = key) with
  | some p => p.2
  | none => ""

structure Request where
  Method : String
  Path : String
  Query : Values

def StatusOK : Nat := 200
def StatusCreated : Nat := 201
def StatusBadRequest : Nat := 400
def StatusNotFound : Nat := 404
def StatusInternalServerError : Nat := 500

/-- What the deferred writer sends: `status` and the entries of `resp`
(`message`, and `data` or `matches` when set). -/
structure Response (C N V : Type) where
  status : Nat
  message : String
  data : Option (Server C N V)
  matches' : Option (List (Server C N V))
deriving DecidableEq, Repr

/-- Outcome of `json.Unmarshal(data, &dst)`: what `dst` holds afterwards and
whether an error was returned. -/
structure Decoded (α : Type) where
  value : α
  err : Bool

/-- The two uses of `json.Unmarshal` in `patch`, each a function of the payload
and of the current content of the destination. -/
structure Json (V : Type) where
  UnmarshalPlayers : String → List Player → Decoded (List Player)
  UnmarshalExtras : String → List (String × V) → Decoded (List (String × V))

/-- The answers of the Docker daemon to the three calls of `post`; `none` and
`false` stand for a returned error. A successful inspection carries both the
container block and the network block that `post` copies into the record. -/
structure Client (C N : Type) where
  ContainerCreate : (image : String) → (env : List String) → Option String
  ContainerStart : (id : String) → Bool
  ContainerInspect : (id : String) → Option (C × N)

/-! ## `handler.go` -/

/-- The handler state that requests read and write: the registry. The Docker
client is passed to `post`; configuration and logger do not affect the registry. -/
structure Handler (C N V : Type) where
  registry : Registry (Server C N V)

def NewHandler {C N V : Type} : Handler C N V := ⟨NewRegistry⟩

section handlers
variable {C N V : Type}

/-- The loop of `find` (lines 47-54) over the listed records. -/
def findLoop (serverType players : Int) :
    List (Server C N V) → List (Server C N V) → List (Server C N V)
  | [], matches' => matches'
  | s :: rest, matches' =>
    if s.Type' ≠ serverType ∨ s.State ≠ StateFree ∨
        wrapInt (s.PlayersMax - (s.Players.length : Int)) < players then
      findLoop serverType players rest matches'
    else
      findLoop serverType players rest (matches' ++ [s])

def Handler.find (h : Handler C N V) (request : Request) : Response C N V :=
  match Atoi (request.Query.Get "type") with
  | none => ⟨StatusBadRequest, "type not set.", none, none⟩
  | some serverType =>
    match Atoi (request.Query.Get "players") with
    | none => ⟨StatusBadRequest, "players not set.", none, none⟩
    | some players =>
      ⟨StatusOK, "OK.", none, some (findLoop serverType players h.registry.GetServers [])⟩

def Handler.get (h : Handler C N V) (request : Request) : Response C N V :=
  let identifier := request.Query.Get "identifier"
  if identifier = "" then ⟨StatusBadRequest, "identifier not set.", none, none⟩
  else
    match h.registry.GetServer identifier with
    | none => ⟨StatusNotFound, "server not found.", none, none⟩
    | some s => ⟨StatusOK, "OK.", some s, none⟩

/-- Lines 143-153 of `patch`, as a function of the record `*s` that the earlier
blocks left: the `extras` block and the final `OK.`. The result is the record
afterwards and the response. -/
def patchExtras (json : Json V) (request : Request) (s : Server C N V) :
    Server C N V × Response C N V :=
  let extras := request.Query.Get "extras"
  if extras ≠ "" then
    let d := json.UnmarshalExtras extras s.Extras
    if d.err then
      ({ s with Extras := d.value }, ⟨StatusBadRequest, "extras invalid.", none, none⟩)
    else
      ({ s with Extras := d.value }, ⟨StatusOK, "OK.", none, none⟩)
  else
    (s, ⟨StatusOK, "OK.", none, none⟩)

/-- Lines 132-141 of `patch`: the `state` block, then the rest. -/
def patchState (json : Json V) (request : Request) (s : Server C N V) :
    Server C N V × Response C N V :=
  let state := request.Query.Get "state"
  if state ≠ "" then
    match Atoi state with
    | none => (s, ⟨StatusBadRequest, "state invalid.", none, none⟩)
    | some stateInt => patchExtras json request { s with State := stateInt }
  else
    patchExtras json request s

/-- Lines 121-130 of `patch`: the `playersMax` block, then the rest. -/
def patchPlayersMax (json : Json V) (request : Request) (s : Server C N V) :
    Server C N V × Response C N V :=
  let playersMax := request.Query.Get "playersMax"
  if playersMax ≠ "" then
    match Atoi playersMax with
    | none => (s, ⟨StatusBadRequest, "players invalid.", none, none⟩)
    | some playersMaxInt => patchState json request { s with PlayersMax := playersMaxInt }
  else
    patchState json request s

/-- Lines 112-119 of `patch`: the `players` block, then the rest. -/
def patchPlayers (json : Json V) (request : Request) (s : Server C N V) :
    Server C N V × Response C N V :=
  let players := request.Query.Get "players"
  if players ≠ "" then
    let d := json.UnmarshalPlayers players s.Players
    if d.err then
      ({ s with Players := d.value }, ⟨StatusBadRequest, "players invalid.", none, none⟩)
    else
      patchPlayersMax json request { s with Players := d.value }
  else
    patchPlayersMax json request s

/-- The handler `patch`. The blocks assign to the fields of the record that
`GetServer` points to; the registry afterwards holds that record, as the blocks
left it, at `identifier`. -/
def Handler.patch (json : Json V) (h : Handler C N V) (request : Request) :
    Handler C N V × Response C N V :=
  let identifier := request.Query.Get "identifier"
  if identifier = "" then (h, ⟨StatusBadRequest, "identifier not set.", none, none⟩)
  else
    match h.registry.GetServer identifier with
    | none => (h, ⟨StatusNotFound, "server not found.", none, none⟩)
    | some s =>
      (⟨h.registry.store identifier (patchPlayers json request s).1⟩,
        (patchPlayers json request s).2)

/-- The handler `post`. Container identifiers are hexadecimal, one byte per
character; slicing an identifier shorter than 12 bytes is a run-time fault,
after which the deferred writer sends the initial status and an empty `resp`. -/
def Handler.post (cli : Client C N) (h : Handler C N V) (request : Request) :
    Handler C N V × Response C N V :=
  let image := request.Query.Get "image"
  if image = "" then (h, ⟨StatusBadRequest, "image not set.", none, none⟩)
  else
    match Atoi (request.Query.Get "type") with
    | none => (h, ⟨StatusBadRequest, "type not set.", none, none⟩)
    | some serverType =>
      match cli.ContainerCreate image
          ["SERVER_CONFIGURATION=" ++ request.Query.Get "configuration",
           "SERVER_IMAGE=" ++ image,
           "SERVER_TYPE=" ++ request.Query.Get "type"] with
      | none => (h, ⟨StatusInternalServerError, "failed to find container.", none, none⟩)
      | some ID =>
        if cli.ContainerStart ID = false then
          (h, ⟨StatusInternalServerError, "failed to start container.", none, none⟩)
        else
          match cli.ContainerInspect ID with
          | none => (h, ⟨StatusInternalServerError, "failed to inspect container.", none, none⟩)
          | some inspection =>
            if ID.length < 12 then (h, ⟨StatusInternalServerError, "", none, none⟩)
            else
              let s : Server C N V :=
                { Identifier := ID.take 12
                  Image := image
                  PlayersMax := 0
                  State := StateStartup
                  Type' := serverType
                  Container := inspection.1
                  Network := inspection.2
                  Extras := []
                  Players := [] }
              (⟨h.registry.AddServer s.Identifier s⟩,
                ⟨StatusCreated, "instance created", some s, none⟩)

def Handler.delete (h : Handler C N V) (request : Request) :
    Handler C N V × Response C N V :=
  let identifier := request.Query.Get "identifier"
  if identifier = "" then (h, ⟨StatusBadRequest, "identifier not set.", none, none⟩)
  else (⟨h.registry.RemoveServer identifier⟩, ⟨StatusOK, "OK.", none, none⟩)

/-- Dispatch on the method; for any other method nothing is written. -/
def Handler.ServeHTTP (json : Json V) (cli : Client C N) (h : Handler C N V)
    (request : Request) : Handler C N V × Option (Response C N V) :=
  if request.Method = "GET" then
    if request.Path = "/find" then (h, some (h.find request))
    else (h, some (h.get request))
  else if request.Method = "PATCH" then
    ((h.patch json request).1, some (h.patch json request).2)
  else if request.Method = "POST" then
    ((h.post cli request).1, some (h.post cli request).2)
  else if request.Method = "DELETE" then
    ((h.delete request).1, some (h.delete request).2)
  else (h, none)

end handlers

/-! ## Specification-level notions -/

section spec
variable {C N V : Type}

/-- The matching condition in the words of the specification, over the
mathematical integers: same type, `Free`, and remaining capacity at least `K`. -/
def Eligible (T K : Int) (s : Server C N V) : Prop :=
  s.Type' = T ∧ s.State = StateFree ∧ s.PlayersMax - (s.Players.length : Int) ≥ K

instance (T K : Int) (s : Server C N V) : Decidable (Eligible T K s) := by
  unfold Eligible; infer_instance

/-- The difference `PlayersMax - len(Players)` is a value of Go's `int`, so the
subtraction in `find` does not wrap around. -/
def CapacityFits (s : Server C N V) : Prop :=
  minInt ≤ s.PlayersMax - (s.Players.length : Int) ∧
    s.PlayersMax - (s.Players.length : Int) ≤ maxInt

instance (s : Server C N V) : Decidable (CapacityFits s) := by
  unfold CapacityFits; infer_instance

/-- The identifiers whose stored record satisfies the specification's condition. -/
def eligibleIds (r : Registry (Server C N V)) (T K : Int) : List String :=
  r.servers.keys.filter (fun id => (r.GetServer id).any (fun s => decide (Eligible T K s)))

/-- The error branch of the `players` block is taken on the record `s`: the
parameter is present and `json.Unmarshal` returns an error. -/
def PlayersMalformed (json : Json V) (request : Request) (s : Server C N V) : Prop :=
  request.Query.Get "players" ≠ "" ∧
    (json.UnmarshalPlayers (request.Query.Get "players") s.Players).err = true

/-- The `playersMax` parameter is present and is not an integer. -/
def PlayersMaxMalformed (request : Request) : Prop :=
  request.Query.Get "playersMax" ≠ "" ∧ Atoi (request.Query.Get "playersMax") = none

/-- The `state` parameter is present and is not an integer. -/
def StateMalformed (request : Request) : Prop :=
  request.Query.Get "state" ≠ "" ∧ Atoi (request.Query.Get "state") = none

/-- The error branch of the `extras` block is taken on the record `s`. -/
def ExtrasMalformed (json : Json V) (request : Request) (s : Server C N V) : Prop :=
  request.Query.Get "extras" ≠ "" ∧
    (json.UnmarshalExtras (request.Query.Get "extras") s.Extras).err = true

instance (json : Json V) (request : Request) (s : Server C N V) :
    Decidable (PlayersMalformed json request s) := by
  unfold PlayersMalformed; infer_instance

instance (request : Request) : Decidable (PlayersMaxMalformed request) := by
  unfold PlayersMaxMalformed; infer_instance

instance (request : Request) : Decidable (StateMalformed request) := by
  unfold StateMalformed; infer_instance

instance (json : Json V) (request : Request) (s : Server C N V) :
    Decidable (ExtrasMalformed json request s) := by
  unfold ExtrasMalformed; infer_instance

/-- The record with the `players` parameter, when present, decoded into `Players`. -/
def applyPlayers (json : Json V) (request : Request) (s : Server C N V) : Server C N V :=
  if request.Query.Get "players" = "" then s
  else { s with Players := (json.UnmarshalPlayers (request.Query.Get "players") s.Players).value }

/-- The record with the `playersMax` parameter, when an integer, as `PlayersMax`. -/
def applyPlayersMax (request : Request) (s : Server C N V) : Server C N V :=
  match Atoi (request.Query.Get "playersMax") with
  | some m => { s with PlayersMax := m }
  | none => s

/-- The record with the `state` parameter, when an integer, as `State`. -/
def applyState (request : Request) (s : Server C N V) : Server C N V :=
  match Atoi (request.Query.Get "state") with
  | some v => { s with State := v }
  | none => s

/-- The record with the `extras` parameter, when present, decoded into `Extras`. -/
def applyExtras (json : Json V) (request : Request) (s : Server C N V) : Server C N V :=
  if request.Query.Get "extras" = "" then s
  else { s with Extras := (json.UnmarshalExtras (request.Query.Get "extras") s.Extras).value }

/-- One request served, with the answers of the libraries during that request. -/
structure Call (C N V : Type) where
  json : Json V
  cli : Client C N
  request : Request

/-- The handler state after serving the calls in order. -/
def serve (h : Handler C N V) (calls : List (Call C N V)) : Handler C N V :=
  calls.foldl (fun h c => (h.ServeHTTP c.json c.cli c.request).1) h

/-- The call is not a `PATCH` that carries a negative `playersMax`. -/
def NonNegativeCapacity (c : Call C N V) : Prop :=
  c.request.Method = "PATCH" → ∀ v ∈ Atoi (c.request.Query.Get "playersMax"), (0 : Int) ≤ v

instance (c : Call C N V) : Decidable (NonNegativeCapacity c) := by
  unfold NonNegativeCapacity; infer_instance

end spec

/-! ## Sample instances used in the examples -/

/-- A table of `json.Unmarshal` on the payloads of the examples: the empty array,
a one-player array and the empty object decode; any other text is treated as
undecodable and leaves the destination as it was. -/
def sampleJson : Json String where
  UnmarshalPlayers := fun data dst =>
    if data = "[]" then ⟨[], false⟩
    else if data = "[\x7b\"username\":\"a\",\"xuid\":\"b\"\x7d]" then ⟨[⟨"a", "b"⟩], false⟩
    else ⟨dst, true⟩
  UnmarshalExtras := fun data dst =>
    if data = "\x7b\x7d" then ⟨dst, false⟩ else ⟨dst, true⟩

/-- A Docker daemon that creates, starts and inspects every container. -/
def sampleClient : Client String String where
  ContainerCreate := fun _ _ => some "0123456789abcdef0123"
  ContainerStart := fun _ => true
  ContainerInspect := fun _ => some ("container", "network")

def sampleServer (identifier : String) (type state playersMax : Int) (players : List Player) :
    Server String String String :=
  { Identifier := identifier, Image := "img", PlayersMax := playersMax, State := state,
    Type' := type, Container := "container", Network := "network", Extras := [],
    Players := players }

/-- The three records of the specification's example for `find`. -/
def abcHandler : Handler String String String :=
  ⟨((NewRegistry.AddServer "A" (sampleServer "A" 1 StateFree 10 [])).AddServer "B"
      (sampleServer "B" 1 StateBusy 10 [])).AddServer "C" (sampleServer "C" 2 StateFree 10 [])⟩

def findRequest (type players : String) : Request :=
  ⟨"GET", "/find", [("type", type), ("players", players)]⟩

def patchRequest (identifier : String) (fields : Values) : Request :=
  ⟨"PATCH", "/", ("identifier", identifier) :: fields⟩

def postRequest : Request := ⟨"POST", "/", [("image", "img"), ("type", "1")]⟩

/-- The state after one successful `post` on the fresh handler; the record is
stored under `0123456789ab`. -/
def createdHandler : Handler String String String :=
  (NewHandler.post sampleClient postRequest).1

/-- After creation, one `patch` sets the smallest `int` as capacity, one player
and the state `Free`. -/
def overflowHandler : Handler String String String :=
  (createdHandler.patch sampleJson (patchRequest "0123456789ab"
    [("playersMax", "-9223372036854775808"),
     ("players", "[\x7b\"username\":\"a\",\"xuid\":\"b\"\x7d]"), ("state", "1")])).1

/-- After creation, one `patch` stores one player and the state `Free`; the
capacity is still the 0 of creation. -/
def overfullHandler : Handler String String String :=
  (createdHandler.patch sampleJson (patchRequest "0123456789ab"
    [("players", "[\x7b\"username\":\"a\",\"xuid\":\"b\"\x7d]"), ("state", "1")])).1

/-- A creation followed by an update that carries `playersMax=-5`. -/
def negativeCalls : List (Call String String String) :=
  [⟨sampleJson, sampleClient, postRequest⟩,
   ⟨sampleJson, sampleClient, patchRequest "0123456789ab" [("playersMax", "-5")]⟩]

/-- A creation, an update with `playersMax=4` and `state=1`, a query, and the
removal of another identifier. -/
def sampleCalls : List (Call String String String) :=
  [⟨sampleJson, sampleClient, postRequest⟩,
   ⟨sampleJson, sampleClient, patchRequest "0123456789ab" [("playersMax", "4"), ("state", "1")]⟩,
   ⟨sampleJson, sampleClient, findRequest "1" "2"⟩,
   ⟨sampleJson, sampleClient, ⟨"DELETE", "/", [("identifier", "ffffffffffff")]⟩⟩]

/-! ## Registry lemmas -/

section registry
variable {α : Type}

theorem foldl_append_singleton {β : Type} (f : β → α) (l : List β) (acc : List α) :
    l.foldl (fun servers e => servers ++ [f e]) acc = acc ++ l.map f := by
  induction l generalizing acc with
  | nil => simp
  | cons e l ih => simp [ih]

theorem GetServers_eq_map (r : Registry α) :
    r.GetServers = r.servers.entries.map (fun e => e.2) := by
  simp [Registry.GetServers, foldl_append_singleton (fun e : (_ : String) × α => e.2)]

theorem mem_GetServers (r : Registry α) (s : α) :
    s ∈ r.GetServers ↔ ∃ id, r.GetServer id = some s := by
  rw [GetServers_eq_map]
  simp only [List.mem_map, Registry.GetServer]
  constructor
  · rintro ⟨⟨k, v⟩, he, rfl⟩
    exact ⟨k, AList.mem_lookup_iff.2 he⟩
  · rintro ⟨k, hk⟩
    exact ⟨⟨k, s⟩, AList.mem_lookup_iff.1 hk, rfl⟩

theorem dlookup_kreplace (a a' : String) (b : α) (l : List ((_ : String) × α)) :
    List.dlookup a' (List.kreplace a b l) =
      if a' = a then (List.dlookup a l).map (fun _ => b) else List.dlookup a' l := by
  induction l with
  | nil => simp [List.kreplace]
  | cons e l ih =>
    obtain ⟨k, v⟩ := e
    by_cases hk : a = k
    · subst hk
      have : List.kreplace a b (⟨a, v⟩ :: l) = ⟨a, b⟩ :: l := by
        simp [List.kreplace, List.lookmap_cons_some]
      rw [this]
      by_cases h : a' = a
      · subst h; simp
      · simp [h, List.dlookup_cons_ne]
    · have : List.kreplace a b (⟨k, v⟩ :: l) = ⟨k, v⟩ :: List.kreplace a b l := by
        simp [List.kreplace, List.lookmap_cons_none, hk]
      rw [this]
      by_cases h : a' = k
      · subst h
        have : a' ≠ a := fun h => hk h.symm
        simp [this]
      · have e1 : ∀ m : List ((_ : String) × α),
            List.dlookup a' (⟨k, v⟩ :: m) = List.dlookup a' m :=
          fun m => List.dlookup_cons_ne m ⟨k, v⟩ h
        have e2 : List.dlookup a (⟨k, v⟩ :: l) = List.dlookup a l :=
          List.dlookup_cons_ne l ⟨k, v⟩ hk
        rw [e1, e1, e2, ih]

theorem GetServer_store (r : Registry α) (id k : String) (s : α) :
    (r.store id s).GetServer k =
      if k = id then (r.GetServer id).map (fun _ => s) else r.GetServer k := by
  simp only [Registry.store, Registry.GetServer, AList.lookup, AList.replace]
  exact dlookup_kreplace id k s r.servers.entries

theorem GetServer_store_self (r : Registry α) (id : String) (s t : α)
    (h : r.GetServer id = some t) : (r.store id s).GetServer id = some s := by
  simp [GetServer_store, h]

theorem GetServer_store_ne (r : Registry α) (id k : String) (s : α) (h : k ≠ id) :
    (r.store id s).GetServer k = r.GetServer k := by
  simp [GetServer_store, h]

theorem GetServer_AddServer_self (r : Registry α) (id : String) (s : α) :
    (r.AddServer id s).GetServer id = some s := by
  simp [Registry.AddServer, Registry.GetServer]

theorem GetServer_AddServer_ne (r : Registry α) (id k : String) (s : α) (h : k ≠ id) :
    (r.AddServer id s).GetServer k = r.GetServer k := by
  simp [Registry.AddServer, Registry.GetServer, AList.lookup_insert_ne h]

theorem GetServer_RemoveServer_self (r : Registry α) (id : String) :
    (r.RemoveServer id).GetServer id = none := by
  simp [Registry.RemoveServer, Registry.GetServer]

theorem GetServer_RemoveServer_ne (r : Registry α) (id k : String) (h : k ≠ id) :
    (r.RemoveServer id).GetServer k = r.GetServer k := by
  simp [Registry.RemoveServer, Registry.GetServer, AList.lookup_erase_ne h]

theorem GetServer_NewRegistry (k : String) : (NewRegistry : Registry α).GetServer k = none := by
  simp [NewRegistry, Registry.GetServer]

end registry

/-! ## Lemmas on `Atoi` and `find` -/

theorem wrapInt_of_fits (x : Int) (hlo : minInt ≤ x) (hhi : x ≤ maxInt) : wrapInt x = x := by
  unfold minInt at hlo
  unfold maxInt at hhi
  unfold wrapInt
  have h : (x + 2 ^ 63) % 2 ^ 64 = x + 2 ^ 63 := by
    apply Int.emod_eq_of_lt <;> omega
  omega

theorem inRange_some (x v : Int) (h : inRange x = some v) : minInt ≤ v ∧ v ≤ maxInt := by
  unfold inRange at h
  split at h
  · rename_i hr
    simp only [Option.some.injEq] at h
    rw [← h]; exact hr
  · exact absurd h (by simp)

theorem Atoi_range (s : String) (v : Int) (h : Atoi s = some v) : minInt ≤ v ∧ v ≤ maxInt := by
  unfold Atoi at h
  split at h
  · exact absurd h (by simp)
  · split at h
    · exact absurd h (by simp)
    · obtain ⟨n, _, hn⟩ := Option.bind_eq_some.1 h
      exact inRange_some _ _ hn
  · split at h
    · exact absurd h (by simp)
    · obtain ⟨n, _, hn⟩ := Option.bind_eq_some.1 h
      exact inRange_some _ _ hn
  · obtain ⟨n, _, hn⟩ := Option.bind_eq_some.1 h
    exact inRange_some _ _ hn

theorem Atoi_empty : Atoi "" = none := by decide

section find
variable {C N V : Type}

theorem findLoop_eq_filter (T K : Int) (l acc : List (Server C N V)) :
    findLoop T K l acc = acc ++ l.filter (fun s =>
      decide (¬ (s.Type' ≠ T ∨ s.State ≠ StateFree ∨
        wrapInt (s.PlayersMax - (s.Players.length : Int)) < K))) := by
  induction l generalizing acc with
  | nil => simp [findLoop]
  | cons s l ih =>
    unfold findLoop
    split
    · rename_i hc
      rw [ih, List.filter_cons_of_neg (by simp only [decide_eq_true_eq, not_not]; exact hc)]
    · rename_i hc
      rw [ih, List.filter_cons_of_pos (by simp only [decide_eq_true_eq]; exact hc)]
      simp

theorem Eligible_iff_of_fits (T K : Int) (s : Server C N V) (hf : CapacityFits s) :
    ¬ (s.Type' ≠ T ∨ s.State ≠ StateFree ∨
        wrapInt (s.PlayersMax - (s.Players.length : Int)) < K) ↔ Eligible T K s := by
  rw [wrapInt_of_fits _ hf.1 hf.2]
  unfold Eligible
  constructor
  · intro h
    refine ⟨?_, ?_, ?_⟩
    · by_contra h1; exact h (Or.inl h1)
    · by_contra h1; exact h (Or.inr (Or.inl h1))
    · by_contra h1; exact h (Or.inr (Or.inr (by omega)))
  · rintro ⟨h1, h2, h3⟩ (h | h | h)
    · exact h h1
    · exact h h2
    · omega

end find

/-! ## The matching query -/

section claims_find
variable {C N V : Type}

theorem filterMap_filter_keys {α : Type} (f : String → Option α) (p : α → Bool)
    (l : List ((_ : String) × α)) (hl : ∀ e ∈ l, f e.1 = some e.2) :
    ((l.map (fun e => e.1)).filter (fun id => (f id).any p)).filterMap f =
      (l.map (fun e => e.2)).filter p := by
  induction l with
  | nil => simp
  | cons e l ih =>
    have he : f e.1 = some e.2 := hl e (List.mem_cons_self _ _)
    have ih' := ih (fun x hx => hl x (List.mem_cons_of_mem _ hx))
    simp only [List.map_cons]
    by_cases hp : p e.2 = true
    · rw [List.filter_cons_of_pos (by simp [he, hp]), List.filter_cons_of_pos hp,
        List.filterMap_cons_some he, ih']
    · rw [List.filter_cons_of_neg (by simp [he, hp]), List.filter_cons_of_neg hp, ih']

theorem records_of_eligibleIds (r : Registry (Server C N V)) (T K : Int) :
    (eligibleIds r T K).filterMap r.GetServer =
      r.GetServers.filter (fun s => decide (Eligible T K s)) := by
  rw [GetServers_eq_map]
  exact filterMap_filter_keys r.GetServer (fun s => decide (Eligible T K s)) r.servers.entries
    (fun e he => AList.mem_lookup_iff.2 (by cases e; exact he))

theorem find_matches_of_fits (r : Registry (Server C N V)) (T K : Int)
    (hfit : ∀ id s, r.GetServer id = some s → CapacityFits s) :
    findLoop T K r.GetServers [] = r.GetServers.filter (fun s => decide (Eligible T K s)) := by
  rw [findLoop_eq_filter, List.nil_append]
  apply List.filter_congr
  intro s hs
  obtain ⟨id, hid⟩ := (mem_GetServers r s).1 hs
  exact decide_eq_decide.2 (Eligible_iff_of_fits T K s (hfit id s hid))

/-- C1 (amended): when no stored record makes the subtraction `PlayersMax - len(Players)`
leave the range of `int`, `find` with type `T` and `players` `K` answers `OK.` with
exactly the stored records that have type `T`, state `Free` and remaining capacity at
least `K`: a record is returned iff it is stored under some identifier and satisfies
the condition, and the result is, up to order, the list of the records stored under
the (pairwise distinct) identifiers whose record satisfies it. -/
theorem find_exact (h : Handler C N V) (request : Request) (T K : Int)
    (hT : Atoi (request.Query.Get "type") = some T)
    (hK : Atoi (request.Query.Get "players") = some K)
    (hfit : ∀ id s, h.registry.GetServer id = some s → CapacityFits s) :
    ∃ ms, h.find request = ⟨StatusOK, "OK.", none, some ms⟩ ∧
      (∀ s, s ∈ ms ↔ ∃ id, h.registry.GetServer id = some s ∧ Eligible T K s) ∧
      (eligibleIds h.registry T K).Nodup ∧
      ms.Perm ((eligibleIds h.registry T K).filterMap h.registry.GetServer) := by
  refine ⟨findLoop T K h.registry.GetServers [], ?_, ?_, ?_, ?_⟩
  · simp [Handler.find, hT, hK]
  · intro s
    rw [find_matches_of_fits h.registry T K hfit, List.mem_filter, mem_GetServers]
    constructor
    · rintro ⟨⟨id, hid⟩, he⟩
      exact ⟨id, hid, of_decide_eq_true he⟩
    · rintro ⟨id, hid, he⟩
      exact ⟨⟨id, hid⟩, decide_eq_true he⟩
  · exact List.Nodup.filter _ h.registry.servers.keys_nodup
  · rw [find_matches_of_fits h.registry T K hfit, records_of_eligibleIds]

/-- The instance of `find_exact` on the specification's example: of the records
`A` (type 1, `Free`), `B` (type 1, `Busy`) and `C` (type 2, `Free`), all with
capacity 10 and no players, `find(1, 5)` returns exactly `A`. -/
theorem find_exact_witness :
    abcHandler.find (findRequest "1" "5") =
        ⟨StatusOK, "OK.", none, some [sampleServer "A" 1 StateFree 10 []]⟩ ∧
      ∃ ms, abcHandler.find (findRequest "1" "5") = ⟨StatusOK, "OK.", none, some ms⟩ ∧
        (∀ s, s ∈ ms ↔ ∃ id, abcHandler.registry.GetServer id = some s ∧ Eligible 1 5 s) ∧
        (eligibleIds abcHandler.registry 1 5).Nodup ∧
        ms.Perm ((eligibleIds abcHandler.registry 1 5).filterMap abcHandler.registry.GetServer) :=
  ⟨by decide,
    find_exact abcHandler (findRequest "1" "5") 1 5 (by decide) (by decide) (by
      intro id s hs
      have hmem : s ∈ abcHandler.registry.GetServers := (mem_GetServers _ s).2 ⟨id, hs⟩
      have hall : ∀ t ∈ abcHandler.registry.GetServers, CapacityFits t := by decide
      exact hall s hmem)⟩

/-- C1 (counterexample): in a state reached by one `post` and one `patch`, the stored
record has capacity `-2^63` and one player, so its remaining capacity is below 5, and
`find(1, 5)` returns it all the same: the subtraction wraps around. -/
theorem find_wraps_counterexample :
    overflowHandler.find (findRequest "1" "5") =
        ⟨StatusOK, "OK.", none,
          some [sampleServer "0123456789ab" 1 StateFree minInt [⟨"a", "b"⟩]]⟩ ∧
      ¬ Eligible 1 5 (sampleServer "0123456789ab" 1 StateFree minInt [⟨"a", "b"⟩]) := by
  decide

theorem mem_findLoop (r : Registry (Server C N V)) (T K : Int) (s : Server C N V) :
    s ∈ findLoop T K r.GetServers [] ↔
      (∃ id, r.GetServer id = some s) ∧ s.Type' = T ∧ s.State = StateFree ∧
        K ≤ wrapInt (s.PlayersMax - (s.Players.length : Int)) := by
  rw [findLoop_eq_filter, List.nil_append, List.mem_filter, mem_GetServers,
    decide_eq_true_eq]
  constructor
  · rintro ⟨hs, hc⟩
    refine ⟨hs, ?_, ?_, ?_⟩
    · by_contra h1; exact hc (Or.inl h1)
    · by_contra h1; exact hc (Or.inr (Or.inl h1))
    · by_contra h1; exact hc (Or.inr (Or.inr (by omega)))
  · rintro ⟨hs, h1, h2, h3⟩
    refine ⟨hs, ?_⟩
    rintro (h | h | h)
    · exact h h1
    · exact h h2
    · omega

/-- C3 (amended): `find` with `players` `K ≤ 0` is accepted (status 200, `OK.`), and
the capacity condition still applies: a stored `Free` record of type `T` whose
difference `PlayersMax - len(Players)` fits `int` is returned iff that difference is
at least `K`. In particular every stored `Free` record of type `T` that holds no more
players than its capacity is returned. -/
theorem find_nonpositive (h : Handler C N V) (request : Request) (T K : Int)
    (hT : Atoi (request.Query.Get "type") = some T)
    (hK : Atoi (request.Query.Get "players") = some K)
    (hK0 : K ≤ 0) :
    ∃ ms, h.find request = ⟨StatusOK, "OK.", none, some ms⟩ ∧
      (∀ id s, h.registry.GetServer id = some s → s.Type' = T → s.State = StateFree →
        CapacityFits s → (s ∈ ms ↔ K ≤ s.PlayersMax - (s.Players.length : Int))) ∧
      (∀ id s, h.registry.GetServer id = some s → s.Type' = T → s.State = StateFree →
        (s.Players.length : Int) ≤ s.PlayersMax → s.PlayersMax ≤ maxInt → s ∈ ms) := by
  refine ⟨findLoop T K h.registry.GetServers [], ?_, ?_, ?_⟩
  · simp [Handler.find, hT, hK]
  · intro id s hs h1 h2 hf
    rw [mem_findLoop, wrapInt_of_fits _ hf.1 hf.2]
    constructor
    · rintro ⟨_, _, _, h3⟩; exact h3
    · intro h3; exact ⟨⟨id, hs⟩, h1, h2, h3⟩
  · intro id s hs h1 h2 h3 h4
    have hlo : minInt ≤ s.PlayersMax - (s.Players.length : Int) := by
      unfold minInt; omega
    have hhi : s.PlayersMax - (s.Players.length : Int) ≤ maxInt := by omega
    rw [mem_findLoop, wrapInt_of_fits _ hlo hhi]
    exact ⟨⟨id, hs⟩, h1, h2, by omega⟩

/-- The instance of `find_nonpositive` on the specification's example with
`players = -3`: the request is accepted and `A` is returned. -/
theorem find_nonpositive_witness :
    abcHandler.find (findRequest "1" "-3") =
        ⟨StatusOK, "OK.", none, some [sampleServer "A" 1 StateFree 10 []]⟩ ∧
      ∃ ms, abcHandler.find (findRequest "1" "-3") = ⟨StatusOK, "OK.", none, some ms⟩ ∧
        (∀ id s, abcHandler.registry.GetServer id = some s → s.Type' = 1 →
          s.State = StateFree → CapacityFits s →
          (s ∈ ms ↔ -3 ≤ s.PlayersMax - (s.Players.length : Int))) ∧
        (∀ id s, abcHandler.registry.GetServer id = some s → s.Type' = 1 →
          s.State = StateFree → (s.Players.length : Int) ≤ s.PlayersMax →
          s.PlayersMax ≤ maxInt → s ∈ ms) :=
  ⟨by decide,
    find_nonpositive abcHandler (findRequest "1" "-3") 1 (-3) (by decide) (by decide)
      (by decide)⟩

/-- C3 (counterexample): in a state reached by one `post` and one `patch`, the record
stored under `0123456789ab` has type 1 and state `Free`, with one player and the
capacity 0 of creation; `find(1, 0)` is accepted and returns no record. -/
theorem find_overfull_counterexample :
    overfullHandler.registry.GetServer "0123456789ab" =
        some (sampleServer "0123456789ab" 1 StateFree 0 [⟨"a", "b"⟩]) ∧
      overfullHandler.find (findRequest "1" "0") = ⟨StatusOK, "OK.", none, some []⟩ := by
  decide

end claims_find

/-! ## The handler `patch` -/

section claims_patch
variable {C N V : Type}

theorem patchExtras_shape (json : Json V) (request : Request) (s : Server C N V) :
    ∃ e, (patchExtras json request s).1 = { s with Extras := e } ∧
      (request.Query.Get "extras" = "" → e = s.Extras) := by
  unfold patchExtras
  by_cases hx : request.Query.Get "extras" = ""
  · exact ⟨s.Extras, by simp [hx], fun _ => rfl⟩
  · refine ⟨(json.UnmarshalExtras (request.Query.Get "extras") s.Extras).value, ?_,
      fun h => absurd h hx⟩
    by_cases he : (json.UnmarshalExtras (request.Query.Get "extras") s.Extras).err = true <;>
      simp [hx, he]

theorem patchState_shape (json : Json V) (request : Request) (s : Server C N V) :
    ∃ st e, (patchState json request s).1 = { s with State := st, Extras := e } ∧
      (st = s.State ∨ Atoi (request.Query.Get "state") = some st) ∧
      (request.Query.Get "extras" = "" → e = s.Extras) := by
  unfold patchState
  by_cases hx : request.Query.Get "state" = ""
  · obtain ⟨e, h1, h2⟩ := patchExtras_shape json request s
    refine ⟨s.State, e, ?_, Or.inl rfl, h2⟩
    simp only [hx, ne_eq, not_true_eq_false, if_false]
    exact h1
  · cases ha : Atoi (request.Query.Get "state") with
    | none =>
      refine ⟨s.State, s.Extras, ?_, Or.inl rfl, fun _ => rfl⟩
      simp only [hx, ne_eq, not_false_eq_true, if_true, ha]
    | some v =>
      obtain ⟨e, h1, h2⟩ := patchExtras_shape json request { s with State := v }
      refine ⟨v, e, ?_, Or.inr rfl, h2⟩
      simp only [hx, ne_eq, not_false_eq_true, if_true, ha]
      exact h1

theorem patchPlayersMax_shape (json : Json V) (request : Request) (s : Server C N V) :
    ∃ m st e, (patchPlayersMax json request s).1 =
        { s with PlayersMax := m, State := st, Extras := e } ∧
      (m = s.PlayersMax ∨ Atoi (request.Query.Get "playersMax") = some m) ∧
      (st = s.State ∨ Atoi (request.Query.Get "state") = some st) ∧
      (request.Query.Get "extras" = "" → e = s.Extras) := by
  unfold patchPlayersMax
  by_cases hx : request.Query.Get "playersMax" = ""
  · obtain ⟨st, e, h1, h2, h3⟩ := patchState_shape json request s
    refine ⟨s.PlayersMax, st, e, ?_, Or.inl rfl, h2, h3⟩
    simp only [hx, ne_eq, not_true_eq_false, if_false]
    exact h1
  · cases ha : Atoi (request.Query.Get "playersMax") with
    | none =>
      refine ⟨s.PlayersMax, s.State, s.Extras, ?_, Or.inl rfl, Or.inl rfl, fun _ => rfl⟩
      simp only [hx, ne_eq, not_false_eq_true, if_true, ha]
    | some v =>
      obtain ⟨st, e, h1, h2, h3⟩ := patchState_shape json request { s with PlayersMax := v }
      refine ⟨v, st, e, ?_, Or.inr rfl, h2, h3⟩
      simp only [hx, ne_eq, not_false_eq_true, if_true, ha]
      exact h1

/-- The record that the blocks of `patch` leave differs from the one they found in
the four mutable fields at most, and in each of them only through its parameter. -/
theorem patchPlayers_shape (json : Json V) (request : Request) (s : Server C N V) :
    ∃ p m st e, (patchPlayers json request s).1 =
        { s with Players := p, PlayersMax := m, State := st, Extras := e } ∧
      (request.Query.Get "players" = "" → p = s.Players) ∧
      (m = s.PlayersMax ∨ Atoi (request.Query.Get "playersMax") = some m) ∧
      (st = s.State ∨ Atoi (request.Query.Get "state") = some st) ∧
      (request.Query.Get "extras" = "" → e = s.Extras) := by
  unfold patchPlayers
  by_cases hx : request.Query.Get "players" = ""
  · obtain ⟨m, st, e, h1, h2, h3, h4⟩ := patchPlayersMax_shape json request s
    refine ⟨s.Players, m, st, e, ?_, fun _ => rfl, h2, h3, h4⟩
    simp only [hx, ne_eq, not_true_eq_false, if_false]
    exact h1
  · by_cases he : (json.UnmarshalPlayers (request.Query.Get "players") s.Players).err = true
    · refine ⟨(json.UnmarshalPlayers (request.Query.Get "players") s.Players).value,
        s.PlayersMax, s.State, s.Extras, ?_, fun h => absurd h hx, Or.inl rfl, Or.inl rfl,
        fun _ => rfl⟩
      simp only [hx, ne_eq, not_false_eq_true, if_true, he]
    · obtain ⟨m, st, e, h1, h2, h3, h4⟩ := patchPlayersMax_shape json request
        { s with Players := (json.UnmarshalPlayers (request.Query.Get "players") s.Players).value }
      refine ⟨(json.UnmarshalPlayers (request.Query.Get "players") s.Players).value,
        m, st, e, ?_, fun h => absurd h hx, h2, h3, h4⟩
      simp only [hx, ne_eq, not_false_eq_true, if_true, he]
      exact h1

/-- The registry after `patch`: when the identifier is set and stored, the record at
it is what the blocks left, and every other key keeps its record. -/
theorem GetServer_patch (json : Json V) (h : Handler C N V) (request : Request)
    (s : Server C N V) (hid : request.Query.Get "identifier" ≠ "")
    (hs : h.registry.GetServer (request.Query.Get "identifier") = some s) (k : String) :
    (h.patch json request).1.registry.GetServer k =
      if k = request.Query.Get "identifier" then some (patchPlayers json request s).1
      else h.registry.GetServer k := by
  unfold Handler.patch
  simp only [hid, if_false, hs]
  rw [GetServer_store]
  by_cases hk : k = request.Query.Get "identifier"
  · simp [hk, hs]
  · simp [hk]

theorem patch_response (json : Json V) (h : Handler C N V) (request : Request)
    (s : Server C N V) (hid : request.Query.Get "identifier" ≠ "")
    (hs : h.registry.GetServer (request.Query.Get "identifier") = some s) :
    (h.patch json request).2 = (patchPlayers json request s).2 := by
  unfold Handler.patch
  simp only [hid, if_false, hs]

/-- When the identifier is empty or not stored, `patch` leaves the handler as it is. -/
theorem patch_unchanged (json : Json V) (h : Handler C N V) (request : Request)
    (hn : request.Query.Get "identifier" = "" ∨
      h.registry.GetServer (request.Query.Get "identifier") = none) :
    (h.patch json request).1 = h := by
  unfold Handler.patch
  by_cases hid : request.Query.Get "identifier" = ""
  · simp [hid]
  · rcases hn with hn | hn
    · exact absurd hn hid
    · simp [hid, hn]

theorem patchExtras_eq (json : Json V) (request : Request) (s : Server C N V) :
    patchExtras json request s =
      (applyExtras json request s,
        if (json.UnmarshalExtras (request.Query.Get "extras") s.Extras).err = true ∧
            request.Query.Get "extras" ≠ "" then
          ⟨StatusBadRequest, "extras invalid.", none, none⟩
        else ⟨StatusOK, "OK.", none, none⟩) := by
  unfold patchExtras applyExtras
  by_cases hx : request.Query.Get "extras" = ""
  · simp [hx]
  · by_cases he : (json.UnmarshalExtras (request.Query.Get "extras") s.Extras).err = true <;>
      simp [hx, he]

theorem patchState_malformed (json : Json V) (request : Request) (s : Server C N V)
    (hm : StateMalformed request) :
    patchState json request s = (s, ⟨StatusBadRequest, "state invalid.", none, none⟩) := by
  unfold patchState
  simp only [hm.1, ne_eq, not_false_eq_true, if_true, hm.2]

theorem patchState_wellformed (json : Json V) (request : Request) (s : Server C N V)
    (hm : ¬ StateMalformed request) :
    patchState json request s = patchExtras json request (applyState request s) := by
  unfold patchState applyState
  by_cases hx : request.Query.Get "state" = ""
  · simp [hx, Atoi_empty]
  · cases ha : Atoi (request.Query.Get "state") with
    | none => exact absurd ⟨hx, ha⟩ hm
    | some v => simp only [hx, ne_eq, not_false_eq_true, if_true, ha]

theorem patchPlayersMax_malformed (json : Json V) (request : Request) (s : Server C N V)
    (hm : PlayersMaxMalformed request) :
    patchPlayersMax json request s =
      (s, ⟨StatusBadRequest, "players invalid.", none, none⟩) := by
  unfold patchPlayersMax
  simp only [hm.1, ne_eq, not_false_eq_true, if_true, hm.2]

theorem patchPlayersMax_wellformed (json : Json V) (request : Request) (s : Server C N V)
    (hm : ¬ PlayersMaxMalformed request) :
    patchPlayersMax json request s = patchState json request (applyPlayersMax request s) := by
  unfold patchPlayersMax applyPlayersMax
  by_cases hx : request.Query.Get "playersMax" = ""
  · simp [hx, Atoi_empty]
  · cases ha : Atoi (request.Query.Get "playersMax") with
    | none => exact absurd ⟨hx, ha⟩ hm
    | some v => simp only [hx, ne_eq, not_false_eq_true, if_true, ha]

theorem patchPlayers_malformed (json : Json V) (request : Request) (s : Server C N V)
    (hm : PlayersMalformed json request s) :
    patchPlayers json request s =
      ({ s with Players := (json.UnmarshalPlayers (request.Query.Get "players") s.Players).value },
        ⟨StatusBadRequest, "players invalid.", none, none⟩) := by
  unfold patchPlayers
  simp only [hm.1, ne_eq, not_false_eq_true, if_true, hm.2]

theorem patchPlayers_wellformed (json : Json V) (request : Request) (s : Server C N V)
    (hm : ¬ PlayersMalformed json request s) :
    patchPlayers json request s =
      patchPlayersMax json request (applyPlayers json request s) := by
  unfold patchPlayers applyPlayers
  by_cases hx : request.Query.Get "players" = ""
  · simp [hx]
  · have he : ¬ (json.UnmarshalPlayers (request.Query.Get "players") s.Players).err = true :=
      fun he => hm ⟨hx, he⟩
    simp [hx, he]

theorem applyPlayers_Extras (json : Json V) (request : Request) (s : Server C N V) :
    (applyPlayers json request s).Extras = s.Extras := by
  unfold applyPlayers; split <;> rfl

theorem applyPlayersMax_Extras (request : Request) (s : Server C N V) :
    (applyPlayersMax request s).Extras = s.Extras := by
  unfold applyPlayersMax; split <;> rfl

theorem applyState_Extras (request : Request) (s : Server C N V) :
    (applyState request s).Extras = s.Extras := by
  unfold applyState; split <;> rfl

end claims_patch

section claims_update
variable {C N V : Type}

/-- C2 (amended): `patch` is not atomic. On a stored record it handles `players`,
`playersMax`, `state`, `extras` in this order and stops at the first malformed one:
whenever some provided field is malformed the response is a validation error (status
400), and the stored record is then the old one with exactly the well-formed fields
before the first malformed one applied. A malformed `playersMax` or `state` is not
stored, the fields after the first malformed one keep their values, and a malformed
`players` or `extras` payload leaves in its field what the decoder wrote. -/
theorem patch_stops_at_first_malformed (json : Json V) (h : Handler C N V)
    (request : Request) (s : Server C N V)
    (hid : request.Query.Get "identifier" ≠ "")
    (hs : h.registry.GetServer (request.Query.Get "identifier") = some s) :
    ((PlayersMalformed json request s ∨ PlayersMaxMalformed request ∨
        StateMalformed request ∨ ExtrasMalformed json request s) →
      (h.patch json request).2.status = StatusBadRequest) ∧
    (PlayersMalformed json request s →
      (h.patch json request).1.registry.GetServer (request.Query.Get "identifier") =
        some { s with Players :=
          (json.UnmarshalPlayers (request.Query.Get "players") s.Players).value }) ∧
    (¬ PlayersMalformed json request s → PlayersMaxMalformed request →
      (h.patch json request).1.registry.GetServer (request.Query.Get "identifier") =
        some (applyPlayers json request s)) ∧
    (¬ PlayersMalformed json request s → ¬ PlayersMaxMalformed request →
      StateMalformed request →
      (h.patch json request).1.registry.GetServer (request.Query.Get "identifier") =
        some (applyPlayersMax request (applyPlayers json request s))) ∧
    (¬ PlayersMalformed json request s → ¬ PlayersMaxMalformed request →
      ¬ StateMalformed request → ExtrasMalformed json request s →
      (h.patch json request).1.registry.GetServer (request.Query.Get "identifier") =
        some (applyExtras json request
          (applyState request (applyPlayersMax request (applyPlayers json request s))))) := by
  have hstored := GetServer_patch json h request s hid hs (request.Query.Get "identifier")
  rw [if_pos rfl] at hstored
  have hresp := patch_response json h request s hid hs
  have hx : (applyState request (applyPlayersMax request (applyPlayers json request s))).Extras
      = s.Extras := by
    rw [applyState_Extras, applyPlayersMax_Extras, applyPlayers_Extras]
  rw [hstored, hresp]
  refine ⟨?_, ?_, ?_, ?_, ?_⟩
  · intro hany
    by_cases h1 : PlayersMalformed json request s
    · rw [patchPlayers_malformed json request s h1]
    · rw [patchPlayers_wellformed json request s h1]
      by_cases h2 : PlayersMaxMalformed request
      · rw [patchPlayersMax_malformed json request _ h2]
      · rw [patchPlayersMax_wellformed json request _ h2]
        by_cases h3 : StateMalformed request
        · rw [patchState_malformed json request _ h3]
        · rw [patchState_wellformed json request _ h3, patchExtras_eq]
          have h4 : ExtrasMalformed json request s := by
            rcases hany with h | h | h | h
            · exact absurd h h1
            · exact absurd h h2
            · exact absurd h h3
            · exact h
          rw [hx, if_pos ⟨h4.2, h4.1⟩]
  · intro h1
    rw [patchPlayers_malformed json request s h1]
  · intro h1 h2
    rw [patchPlayers_wellformed json request s h1, patchPlayersMax_malformed json request _ h2]
  · intro h1 h2 h3
    rw [patchPlayers_wellformed json request s h1,
      patchPlayersMax_wellformed json request _ h2, patchState_malformed json request _ h3]
  · intro h1 h2 h3 _
    rw [patchPlayers_wellformed json request s h1,
      patchPlayersMax_wellformed json request _ h2, patchState_wellformed json request _ h3,
      patchExtras_eq]

/-- The instance of `patch_stops_at_first_malformed` on the specification's example:
`playersMax=not-a-number` with `state=1` on a freshly created record is answered with
status 400 and the stored record, its state included, is as before. -/
theorem patch_stops_at_first_malformed_witness :
    (createdHandler.patch sampleJson (patchRequest "0123456789ab"
        [("playersMax", "not-a-number"), ("state", "1")])).2.status = StatusBadRequest ∧
      (createdHandler.patch sampleJson (patchRequest "0123456789ab"
        [("playersMax", "not-a-number"), ("state", "1")])).1.registry.GetServer "0123456789ab" =
        some (sampleServer "0123456789ab" 1 StateStartup 0 []) :=
  have key := patch_stops_at_first_malformed sampleJson createdHandler
    (patchRequest "0123456789ab" [("playersMax", "not-a-number"), ("state", "1")])
    (sampleServer "0123456789ab" 1 StateStartup 0 []) (by decide) (by decide)
  ⟨key.1 (Or.inr (Or.inl (by decide))), key.2.2.1 (by decide) (by decide)⟩

/-- C2 (counterexample): on a freshly created record (capacity 0), the patch
`playersMax=7` with `state=x` is answered with the validation error `state invalid.`,
and the stored capacity is 7 afterwards. -/
theorem patch_not_atomic_counterexample :
    createdHandler.registry.GetServer "0123456789ab" =
        some (sampleServer "0123456789ab" 1 StateStartup 0 []) ∧
      (createdHandler.patch sampleJson (patchRequest "0123456789ab"
        [("playersMax", "7"), ("state", "x")])).2 =
        ⟨StatusBadRequest, "state invalid.", none, none⟩ ∧
      (createdHandler.patch sampleJson (patchRequest "0123456789ab"
        [("playersMax", "7"), ("state", "x")])).1.registry.GetServer "0123456789ab" =
        some (sampleServer "0123456789ab" 1 StateStartup 7 []) := by
  decide

theorem applyState_State (request : Request) (s : Server C N V) (v : Int)
    (hv : Atoi (request.Query.Get "state") = some v) : (applyState request s).State = v := by
  unfold applyState; rw [hv]

theorem applyExtras_State (json : Json V) (request : Request) (s : Server C N V) :
    (applyExtras json request s).State = s.State := by
  unfold applyExtras; split <;> rfl

theorem applyPlayers_State (json : Json V) (request : Request) (s : Server C N V) :
    (applyPlayers json request s).State = s.State := by
  unfold applyPlayers; split <;> rfl

theorem applyPlayersMax_State (request : Request) (s : Server C N V) :
    (applyPlayersMax request s).State = s.State := by
  unfold applyPlayersMax; split <;> rfl

/-- C4 (amended): `patch` does not check the range of `state`. On a stored record,
with `players` and `playersMax` absent or well-formed, a `state` parameter that is the
text of any integer `v` of Go's `int`, one of the four ordinals or not, is stored as
the record's state, and the response is `OK.` unless `extras` is malformed; the patch
is rejected with `state invalid.` only when `state` is not an integer, and then the
stored state is the one before. -/
theorem patch_state_unchecked (json : Json V) (h : Handler C N V)
    (request : Request) (s : Server C N V)
    (hid : request.Query.Get "identifier" ≠ "")
    (hs : h.registry.GetServer (request.Query.Get "identifier") = some s)
    (hp : ¬ PlayersMalformed json request s) (hm : ¬ PlayersMaxMalformed request) :
    (∀ v, Atoi (request.Query.Get "state") = some v →
      (minInt ≤ v ∧ v ≤ maxInt) ∧
      (∃ s', (h.patch json request).1.registry.GetServer (request.Query.Get "identifier") =
          some s' ∧ s'.State = v) ∧
      (¬ ExtrasMalformed json request s →
        (h.patch json request).2 = ⟨StatusOK, "OK.", none, none⟩)) ∧
    (StateMalformed request →
      (h.patch json request).2 = ⟨StatusBadRequest, "state invalid.", none, none⟩ ∧
      ∃ s', (h.patch json request).1.registry.GetServer (request.Query.Get "identifier") =
          some s' ∧ s'.State = s.State) := by
  have hstored := GetServer_patch json h request s hid hs (request.Query.Get "identifier")
  rw [if_pos rfl] at hstored
  have hresp := patch_response json h request s hid hs
  have hx : (applyState request (applyPlayersMax request (applyPlayers json request s))).Extras
      = s.Extras := by
    rw [applyState_Extras, applyPlayersMax_Extras, applyPlayers_Extras]
  rw [hstored, hresp, patchPlayers_wellformed json request s hp,
    patchPlayersMax_wellformed json request _ hm]
  constructor
  · intro v hv
    have h3 : ¬ StateMalformed request := fun h3 => by
      rw [h3.2] at hv; exact absurd hv (by simp)
    rw [patchState_wellformed json request _ h3, patchExtras_eq]
    refine ⟨Atoi_range _ v hv, ⟨_, rfl, ?_⟩, ?_⟩
    · rw [applyExtras_State, applyState_State _ _ v hv]
    · intro h4
      rw [hx, if_neg (fun hc => h4 ⟨hc.2, hc.1⟩)]
  · intro h3
    rw [patchState_malformed json request _ h3]
    exact ⟨rfl, _, rfl, by rw [applyPlayersMax_State, applyPlayers_State]⟩

/-- The instance of `patch_state_unchecked` at `state=7` on a freshly created record:
the patch is answered `OK.` and the stored state is 7. -/
theorem patch_state_unchecked_witness :
    (∃ s', (createdHandler.patch sampleJson (patchRequest "0123456789ab"
          [("state", "7")])).1.registry.GetServer "0123456789ab" = some s' ∧ s'.State = 7) ∧
      (createdHandler.patch sampleJson (patchRequest "0123456789ab" [("state", "7")])).2 =
        ⟨StatusOK, "OK.", none, none⟩ :=
  have key := (patch_state_unchecked sampleJson createdHandler
    (patchRequest "0123456789ab" [("state", "7")])
    (sampleServer "0123456789ab" 1 StateStartup 0 []) (by decide) (by decide) (by decide)
    (by decide)).1 7 (by decide)
  ⟨key.2.1, key.2.2 (by decide)⟩

/-- C4 (counterexample): the patch `state=7` on a freshly created record is not
rejected; it is answered `OK.` and the stored state is 7 afterwards, which is none of
the four ordinals. -/
theorem patch_state_out_of_range_counterexample :
    (createdHandler.patch sampleJson (patchRequest "0123456789ab" [("state", "7")])).2 =
        ⟨StatusOK, "OK.", none, none⟩ ∧
      (createdHandler.patch sampleJson (patchRequest "0123456789ab"
        [("state", "7")])).1.registry.GetServer "0123456789ab" =
        some (sampleServer "0123456789ab" 1 7 0 []) ∧
      (7 : Int) ∉ [StateStartup, StateFree, StateBusy, StateShutdown] := by
  decide

/-- C7: `patch` changes only the fields present in the query. For every key `k`, a key
without a record has none afterwards, and a record stored at `k` is still stored there
with the same identifier, image, type, container and network blocks, and with each of
`Players`, `PlayersMax`, `State`, `Extras` unchanged when its parameter is absent
(empty); records at keys other than the patched identifier are unchanged altogether.
This holds for every response of `patch`, success or failure. -/
theorem patch_frame (json : Json V) (h : Handler C N V) (request : Request) (k : String) :
    (h.registry.GetServer k = none → (h.patch json request).1.registry.GetServer k = none) ∧
    (∀ s, h.registry.GetServer k = some s →
      ∃ s', (h.patch json request).1.registry.GetServer k = some s' ∧
        s'.Identifier = s.Identifier ∧ s'.Image = s.Image ∧ s'.Type' = s.Type' ∧
        s'.Container = s.Container ∧ s'.Network = s.Network ∧
        (request.Query.Get "players" = "" → s'.Players = s.Players) ∧
        (request.Query.Get "playersMax" = "" → s'.PlayersMax = s.PlayersMax) ∧
        (request.Query.Get "state" = "" → s'.State = s.State) ∧
        (request.Query.Get "extras" = "" → s'.Extras = s.Extras) ∧
        (k ≠ request.Query.Get "identifier" → s' = s)) := by
  by_cases hn : request.Query.Get "identifier" = "" ∨
      h.registry.GetServer (request.Query.Get "identifier") = none
  · rw [patch_unchanged json h request hn]
    exact ⟨fun hk => hk, fun s hs =>
      ⟨s, hs, rfl, rfl, rfl, rfl, rfl, fun _ => rfl, fun _ => rfl, fun _ => rfl,
        fun _ => rfl, fun _ => rfl⟩⟩
  · have hid : request.Query.Get "identifier" ≠ "" := fun hc => hn (Or.inl hc)
    obtain ⟨t, ht⟩ : ∃ t, h.registry.GetServer (request.Query.Get "identifier") = some t := by
      cases hg : h.registry.GetServer (request.Query.Get "identifier") with
      | none => exact absurd (Or.inr hg) hn
      | some t => exact ⟨t, rfl⟩
    rw [GetServer_patch json h request t hid ht k]
    by_cases hk : k = request.Query.Get "identifier"
    · rw [if_pos hk]
      constructor
      · intro hnone
        rw [hk, ht] at hnone
        exact absurd hnone (by simp)
      · intro s hs
        rw [hk, ht] at hs
        have hts : t = s := Option.some.inj hs
        subst hts
        obtain ⟨p, m, st, e, hshape, hp, hm, hst, he⟩ := patchPlayers_shape json request t
        refine ⟨_, rfl, ?_⟩
        rw [hshape]
        refine ⟨rfl, rfl, rfl, rfl, rfl, hp, ?_, ?_, he, fun hne => absurd hk hne⟩
        · intro hab
          rcases hm with hm | hm
          · exact hm
          · rw [hab, Atoi_empty] at hm; exact absurd hm (by simp)
        · intro hab
          rcases hst with hst | hst
          · exact hst
          · rw [hab, Atoi_empty] at hst; exact absurd hst (by simp)
    · rw [if_neg hk]
      exact ⟨fun hnone => hnone, fun s hs =>
        ⟨s, hs, rfl, rfl, rfl, rfl, rfl, fun _ => rfl, fun _ => rfl, fun _ => rfl,
          fun _ => rfl, fun _ => rfl⟩⟩

/-- The instance of `patch_frame` for a patch that carries `state=2` only, on a
freshly created record: image, type, players, capacity and extras are those of
creation. -/
theorem patch_frame_witness :
    ∃ s', (createdHandler.patch sampleJson (patchRequest "0123456789ab"
          [("state", "2")])).1.registry.GetServer "0123456789ab" = some s' ∧
      s'.Identifier = "0123456789ab" ∧ s'.Image = "img" ∧ s'.Type' = 1 ∧
      s'.Players = [] ∧ s'.PlayersMax = 0 ∧ s'.Extras = [] :=
  have ⟨s', h1, h2, h3, h4, _, _, h7, h8, _, h10, _⟩ :=
    (patch_frame sampleJson createdHandler (patchRequest "0123456789ab" [("state", "2")])
      "0123456789ab").2 (sampleServer "0123456789ab" 1 StateStartup 0 []) (by decide)
  ⟨s', h1, h2, h3, h4, h7 (by decide), h8 (by decide), h10 (by decide)⟩

/-- C8 (the code at the failing input): on a stored record, a patch whose `players`
payload is rejected by the decoder and a patch whose `playersMax` is not an integer
(its `players` absent or well-formed) get the same response, status 400 with the
message `players invalid.`; the error for `playersMax` does not name its field. -/
theorem patch_playersMax_error_names_players (json : Json V) (h : Handler C N V)
    (request₁ request₂ : Request) (s₁ s₂ : Server C N V)
    (hid₁ : request₁.Query.Get "identifier" ≠ "")
    (hs₁ : h.registry.GetServer (request₁.Query.Get "identifier") = some s₁)
    (hid₂ : request₂.Query.Get "identifier" ≠ "")
    (hs₂ : h.registry.GetServer (request₂.Query.Get "identifier") = some s₂)
    (hplayers : PlayersMalformed json request₁ s₁)
    (hwell : ¬ PlayersMalformed json request₂ s₂)
    (hmax : PlayersMaxMalformed request₂) :
    (h.patch json request₁).2 = ⟨StatusBadRequest, "players invalid.", none, none⟩ ∧
      (h.patch json request₂).2 = ⟨StatusBadRequest, "players invalid.", none, none⟩ := by
  rw [patch_response json h request₁ s₁ hid₁ hs₁, patch_response json h request₂ s₂ hid₂ hs₂,
    patchPlayers_malformed json request₁ s₁ hplayers,
    patchPlayers_wellformed json request₂ s₂ hwell,
    patchPlayersMax_malformed json request₂ _ hmax]
  exact ⟨rfl, rfl⟩

/-- The instance of `patch_playersMax_error_names_players` with the payloads
`players=x` and `playersMax=abc` on a freshly created record. -/
theorem patch_playersMax_error_names_players_witness :
    (createdHandler.patch sampleJson (patchRequest "0123456789ab" [("players", "x")])).2 =
        ⟨StatusBadRequest, "players invalid.", none, none⟩ ∧
      (createdHandler.patch sampleJson (patchRequest "0123456789ab"
        [("playersMax", "abc")])).2 = ⟨StatusBadRequest, "players invalid.", none, none⟩ :=
  patch_playersMax_error_names_players sampleJson createdHandler
    (patchRequest "0123456789ab" [("players", "x")])
    (patchRequest "0123456789ab" [("playersMax", "abc")])
    (sampleServer "0123456789ab" 1 StateStartup 0 [])
    (sampleServer "0123456789ab" 1 StateStartup 0 [])
    (by decide) (by decide) (by decide) (by decide) (by decide) (by decide) (by decide)

end claims_update

/-! ## The registry operations and the reachable states -/

section claims_registry
variable {α : Type} {C N V : Type}

theorem GetServers_AddServer (r : Registry α) (id : String) (s : α) :
    (r.AddServer id s).GetServers = s :: (r.RemoveServer id).GetServers := by
  rw [GetServers_eq_map, GetServers_eq_map]
  simp [Registry.AddServer, Registry.RemoveServer, AList.insert_entries, AList.erase]

/-- C5: after `AddServer id r1` and then `AddServer id r2`, `GetServer id` yields `r2`,
the key `id` occurs once among the keys, and `GetServers` lists, up to order, `r2`
together with the records of the other keys; the registry equals the one obtained by
adding `r2` alone. `AddServer` returns a registry and has no error result. -/
theorem AddServer_overwrites (r : Registry α) (id : String) (r1 r2 : α) :
    ((r.AddServer id r1).AddServer id r2).GetServer id = some r2 ∧
      ((r.AddServer id r1).AddServer id r2).servers.keys.count id = 1 ∧
      ((r.AddServer id r1).AddServer id r2).GetServers.Perm
        (r2 :: (r.RemoveServer id).GetServers) ∧
      (r.AddServer id r1).AddServer id r2 = r.AddServer id r2 := by
  have heq : (r.AddServer id r1).AddServer id r2 = r.AddServer id r2 := by
    simp [Registry.AddServer, AList.insert_insert]
  rw [heq]
  refine ⟨GetServer_AddServer_self r id r2, ?_, ?_, rfl⟩
  · apply List.count_eq_one_of_mem (AList.keys_nodup _)
    simp [Registry.AddServer, AList.keys_insert]
  · rw [GetServers_AddServer]

/-- C6: `RemoveServer` is total and idempotent. Removing `id` twice gives the registry
of removing it once, `GetServer id` finds nothing after one or two removals, and the
record of every other key is unchanged, whether `id` was stored or not. The handler
`delete` with a non-empty identifier answers `OK.` with status 200 in every state and
leaves the registry with the identifier removed. -/
theorem RemoveServer_idempotent (h : Handler C N V) (request : Request) (id : String) :
    (h.registry.RemoveServer id).RemoveServer id = h.registry.RemoveServer id ∧
      (h.registry.RemoveServer id).GetServer id = none ∧
      ((h.registry.RemoveServer id).RemoveServer id).GetServer id = none ∧
      (∀ k, k ≠ id → (h.registry.RemoveServer id).GetServer k = h.registry.GetServer k) ∧
      (request.Query.Get "identifier" = id → id ≠ "" →
        h.delete request = (⟨h.registry.RemoveServer id⟩, ⟨StatusOK, "OK.", none, none⟩)) := by
  have hidem : (h.registry.RemoveServer id).RemoveServer id = h.registry.RemoveServer id := by
    have hnot : id ∉ (h.registry.servers.erase id).entries.keys := by
      intro hc
      have hmem : id ∈ h.registry.servers.erase id := AList.mem_keys.2 hc
      rw [AList.mem_erase] at hmem
      exact hmem.1 rfl
    simp only [Registry.RemoveServer]
    congr 1
    apply AList.ext
    simp only [AList.erase]
    exact List.kerase_of_not_mem_keys hnot
  refine ⟨hidem, GetServer_RemoveServer_self _ id, ?_, ?_, ?_⟩
  · rw [hidem]; exact GetServer_RemoveServer_self _ id
  · intro k hk
    exact GetServer_RemoveServer_ne _ id k hk
  · intro hreq hne
    unfold Handler.delete
    simp [hreq, hne]

/-- The instance of `RemoveServer_idempotent` on the specification's example: `B` is
found before, the handler answers `OK.` to its removal, and neither one nor two
removals leave it; removing the absent `Z` is answered `OK.` as well. -/
theorem RemoveServer_idempotent_witness :
    abcHandler.registry.GetServer "B" = some (sampleServer "B" 1 StateBusy 10 []) ∧
      (abcHandler.delete ⟨"DELETE", "/", [("identifier", "B")]⟩).2 =
        ⟨StatusOK, "OK.", none, none⟩ ∧
      ((abcHandler.delete ⟨"DELETE", "/", [("identifier", "B")]⟩).1.registry.RemoveServer
        "B").GetServer "B" = none ∧
      (abcHandler.registry.RemoveServer "B").GetServer "A" = abcHandler.registry.GetServer "A" ∧
      abcHandler.delete ⟨"DELETE", "/", [("identifier", "Z")]⟩ =
        (⟨abcHandler.registry.RemoveServer "Z"⟩, ⟨StatusOK, "OK.", none, none⟩) :=
  have key := RemoveServer_idempotent abcHandler ⟨"DELETE", "/", [("identifier", "B")]⟩ "B"
  have hdel := key.2.2.2.2 (by decide) (by decide)
  ⟨by decide, by rw [hdel], by rw [hdel]; exact key.2.2.1, key.2.2.2.1 "A" (by decide),
    (RemoveServer_idempotent abcHandler ⟨"DELETE", "/", [("identifier", "Z")]⟩ "Z").2.2.2.2
      (by decide) (by decide)⟩

end claims_registry

section claims_reachable
variable {C N V : Type}

theorem post_cases (cli : Client C N) (h : Handler C N V) (request : Request) :
    (h.post cli request).1 = h ∨
      ∃ s : Server C N V, s.PlayersMax = 0 ∧
        (h.post cli request).1 = ⟨h.registry.AddServer s.Identifier s⟩ := by
  unfold Handler.post
  by_cases himg : request.Query.Get "image" = ""
  · left
    rw [if_pos himg]
  · rw [if_neg himg]
    split
    · left; rfl
    · split
      · left; rfl
      · split
        · left; rfl
        · split
          · left; rfl
          · split
            · left; rfl
            · right
              refine ⟨_, ?_, rfl⟩
              rfl

theorem patch_PlayersMax (json : Json V) (h : Handler C N V) (request : Request)
    (k : String) (s' : Server C N V)
    (hs' : (h.patch json request).1.registry.GetServer k = some s') :
    ∃ s, h.registry.GetServer k = some s ∧
      (s'.PlayersMax = s.PlayersMax ∨
        Atoi (request.Query.Get "playersMax") = some s'.PlayersMax) := by
  by_cases hn : request.Query.Get "identifier" = "" ∨
      h.registry.GetServer (request.Query.Get "identifier") = none
  · rw [patch_unchanged json h request hn] at hs'
    exact ⟨s', hs', Or.inl rfl⟩
  · have hid : request.Query.Get "identifier" ≠ "" := fun hc => hn (Or.inl hc)
    obtain ⟨t, ht⟩ : ∃ t, h.registry.GetServer (request.Query.Get "identifier") = some t := by
      cases hg : h.registry.GetServer (request.Query.Get "identifier") with
      | none => exact absurd (Or.inr hg) hn
      | some t => exact ⟨t, rfl⟩
    rw [GetServer_patch json h request t hid ht k] at hs'
    by_cases hk : k = request.Query.Get "identifier"
    · rw [if_pos hk] at hs'
      obtain ⟨p, m, st, e, hshape, _, hm, _, _⟩ := patchPlayers_shape json request t
      have hs'' : s' = (patchPlayers json request t).1 := (Option.some.inj hs').symm
      refine ⟨t, by rw [hk, ht], ?_⟩
      rw [hs'', hshape]
      exact hm
    · rw [if_neg hk] at hs'
      exact ⟨s', hs', Or.inl rfl⟩

/-- Serving one request keeps a property `Q` of the stored capacities, when `Q` holds
of 0 and of the integer that a `PATCH` carries as `playersMax`. -/
theorem ServeHTTP_preserves (Q : Int → Prop) (hQ0 : Q 0) (json : Json V) (cli : Client C N)
    (h : Handler C N V) (request : Request)
    (hQp : request.Method = "PATCH" →
      ∀ v, Atoi (request.Query.Get "playersMax") = some v → Q v)
    (hinv : ∀ k s, h.registry.GetServer k = some s → Q s.PlayersMax) :
    ∀ k s, (h.ServeHTTP json cli request).1.registry.GetServer k = some s → Q s.PlayersMax := by
  intro k s hs
  unfold Handler.ServeHTTP at hs
  by_cases hget : request.Method = "GET"
  · by_cases hpath : request.Path = "/find"
    · rw [if_pos hget, if_pos hpath] at hs
      exact hinv k s hs
    · rw [if_pos hget, if_neg hpath] at hs
      exact hinv k s hs
  · by_cases hpatch : request.Method = "PATCH"
    · rw [if_neg hget, if_pos hpatch] at hs
      obtain ⟨t, ht, hm⟩ := patch_PlayersMax json h request k s hs
      rcases hm with hm | hm
      · rw [hm]; exact hinv k t ht
      · exact hQp hpatch _ hm
    · by_cases hpost : request.Method = "POST"
      · rw [if_neg hget, if_neg hpatch, if_pos hpost] at hs
        rcases post_cases cli h request with hp | ⟨t, ht0, hp⟩
        · rw [hp] at hs; exact hinv k s hs
        · rw [hp] at hs
          by_cases hk : k = t.Identifier
          · rw [hk, GetServer_AddServer_self] at hs
            rw [← Option.some.inj hs, ht0]; exact hQ0
          · rw [GetServer_AddServer_ne _ _ _ _ hk] at hs
            exact hinv k s hs
      · by_cases hdel : request.Method = "DELETE"
        · rw [if_neg hget, if_neg hpatch, if_neg hpost, if_pos hdel] at hs
          unfold Handler.delete at hs
          by_cases hid : request.Query.Get "identifier" = ""
          · simp only [hid, if_true] at hs
            exact hinv k s hs
          · simp only [hid, if_false] at hs
            by_cases hk : k = request.Query.Get "identifier"
            · rw [hk, GetServer_RemoveServer_self] at hs
              exact absurd hs (by simp)
            · rw [GetServer_RemoveServer_ne _ _ _ hk] at hs
              exact hinv k s hs
        · rw [if_neg hget, if_neg hpatch, if_neg hpost, if_neg hdel] at hs
          exact hinv k s hs

theorem serve_preserves (Q : Int → Prop) (hQ0 : Q 0) (calls : List (Call C N V))
    (hQp : ∀ c ∈ calls, c.request.Method = "PATCH" →
      ∀ v, Atoi (c.request.Query.Get "playersMax") = some v → Q v)
    (h : Handler C N V) (hinv : ∀ k s, h.registry.GetServer k = some s → Q s.PlayersMax) :
    ∀ k s, (serve h calls).registry.GetServer k = some s → Q s.PlayersMax := by
  induction calls generalizing h with
  | nil => exact hinv
  | cons c calls ih =>
    unfold serve
    rw [List.foldl_cons]
    exact ih (fun c' hc' => hQp c' (List.mem_cons_of_mem _ hc'))
      (h.ServeHTTP c.json c.cli c.request).1
      (ServeHTTP_preserves Q hQ0 c.json c.cli h c.request (hQp c (List.mem_cons_self _ _)) hinv)

/-- C9 (amended): creation stores the capacity 0 and `patch` stores the integer it is
given without checking its sign. In every state reached from the fresh handler by
serving requests, every stored `PlayersMax` is a value of Go's `int`, and it is
non-negative provided no `PATCH` among the requests carried a negative `playersMax`. -/
theorem capacity_in_reachable_states (calls : List (Call C N V)) (k : String)
    (s : Server C N V) (hs : (serve NewHandler calls).registry.GetServer k = some s) :
    (minInt ≤ s.PlayersMax ∧ s.PlayersMax ≤ maxInt) ∧
      ((∀ c ∈ calls, NonNegativeCapacity c) → 0 ≤ s.PlayersMax) := by
  have hnew : ∀ (Q : Int → Prop) (k : String) (s : Server C N V),
      (NewHandler : Handler C N V).registry.GetServer k = some s → Q s.PlayersMax := by
    intro Q k s hks
    rw [show (NewHandler : Handler C N V).registry = NewRegistry from rfl,
      GetServer_NewRegistry] at hks
    exact absurd hks (by simp)
  constructor
  · exact serve_preserves (fun v => minInt ≤ v ∧ v ≤ maxInt) (by decide) calls
      (fun c _ _ v hv => Atoi_range _ v hv) NewHandler
      (hnew (fun v => minInt ≤ v ∧ v ≤ maxInt)) k s hs
  · intro hnn
    exact serve_preserves (fun v => 0 ≤ v) (le_refl 0) calls
      (fun c hc hm v hv => hnn c hc hm v hv) NewHandler
      (hnew (fun v => 0 ≤ v)) k s hs

/-- The instance of `capacity_in_reachable_states` after a creation, an update with
`playersMax=4` and `state=1`, a query and a removal: the stored capacity is 4. -/
theorem capacity_in_reachable_states_witness :
    (serve NewHandler sampleCalls).registry.GetServer "0123456789ab" =
        some (sampleServer "0123456789ab" 1 StateFree 4 []) ∧
      (0 : Int) ≤ (sampleServer "0123456789ab" 1 StateFree 4 []).PlayersMax :=
  ⟨by decide,
    (capacity_in_reachable_states sampleCalls "0123456789ab"
      (sampleServer "0123456789ab" 1 StateFree 4 []) (by decide)).2 (by decide)⟩

/-- C9 (counterexample): after a creation and the update `playersMax=-5`, answered
`OK.`, the stored record has the capacity -5. -/
theorem negative_capacity_counterexample :
    (serve NewHandler negativeCalls).registry.GetServer "0123456789ab" =
        some (sampleServer "0123456789ab" 1 StateStartup (-5) []) ∧
      ((NewHandler.post sampleClient postRequest).1.patch sampleJson
        (patchRequest "0123456789ab" [("playersMax", "-5")])).2 =
        ⟨StatusOK, "OK.", none, none⟩ ∧
      ¬ (0 : Int) ≤ (sampleServer "0123456789ab" 1 StateStartup (-5) []).PlayersMax := by
  decide

end claims_reachable

end Matchmaking
